import Mathlib

/-!
Shallow embedding of the induced-dipole polarization core of
`pair_lj_cut_coul_long_polarization.cpp` (LAMMPS pair style
`lj/cut/coul/long/polarization`).

Numbers are modelled as exact rationals (`ℚ`).  The square root and the
exponential, which the C code takes from `libm`, are passed in as explicit
function parameters (`sqrtQ`, `expQ`); the minimum-image resolver
`domain->closest_image` is an external collaborator and is likewise a
parameter (`cimg`, returning the periodic image of its second argument
that is closest to its first).  Machine `double` arithmetic is modelled
as exact field arithmetic except where a claim is specifically about
IEEE non-finite values; there (`polar_pair`) division is modelled in
`Option`, with `none` standing for the production of an IEEE infinity
(division by zero).
-/

namespace Polarization

/-- A 3-vector of rationals, mirroring a `double[3]`. -/
abbrev Vec3 := ℚ × ℚ × ℚ

/-- Component access `v[p]` for `p = 0, 1, 2` (out-of-range reads give 0). -/
def comp (v : Vec3) : ℕ → ℚ
  | 0 => v.1
  | 1 => v.2.1
  | 2 => v.2.2
  | _ => 0

/-- Componentwise scaling `a * v`, as the C code writes it out per component. -/
def vscale (a : ℚ) (v : Vec3) : Vec3 := (a * v.1, a * v.2.1, a * v.2.2)

/-- Dot product of two 3-vectors. -/
def vdot (u v : Vec3) : ℚ := u.1 * v.1 + u.2.1 * v.2.1 + u.2.2 * v.2.2

/-- Read element `i` of a list of 3-vectors (array read `arr[i]`). -/
def vget (l : List Vec3) (i : ℕ) : Vec3 := l.getD i (0, 0, 0)

/-- The constant `DBL_MAX` from `float.h`: the largest finite IEEE double,
`(2^53-1)·2^971`.  Proofs never evaluate this constant numerically: it only
matters that it is a fixed finite rational. -/
def DBL_MAX : ℚ := ((2 ^ 53 - 1) * 2 ^ 971 : ℕ)

/-- A structurally-recursive integer square root (largest `k ≤ n` with
`k·k ≤ n`), used to build an executable rational square root for concrete
evaluations (`Nat.sqrt` itself is defined by well-founded recursion and does
not reduce inside `decide`). -/
def natSqrt (n : ℕ) : ℕ :=
  (List.range (n + 1)).foldl (fun acc k => if k * k ≤ n then k else acc) 0

/-- An executable rational square root, exact on rationals that are squares
of rationals (in particular `ratSqrt 0 = 0` and `ratSqrt 1 = 1`).  Used only
to instantiate the `sqrtQ` collaborator parameter in concrete evaluations. -/
def ratSqrt (x : ℚ) : ℚ := (natSqrt x.num.toNat : ℚ) / (natSqrt x.den : ℚ)

/-- The identity minimum-image resolver (non-periodic domain): the closest
image of `xj` is `xj` itself.  Used to instantiate `cimg` in concrete runs. -/
def idImage : Vec3 → Vec3 → Vec3 := fun _ xj => xj

/-- The pair style's global polarization settings (constructor defaults and
`settings()` keywords of the C++ class; `damping_exponential` is
`damping_type == DAMPING_EXPONENTIAL`). -/
structure PolarConfig where
  polar_gs : Bool
  polar_gs_ranked : Bool
  fixed_iteration : Bool
  iterations_max : ℕ
  polar_precision : ℚ
  polar_gamma : ℚ
  damping_exponential : Bool
  polar_damp : ℚ
deriving DecidableEq

/-- The per-particle state the solver reads: local particle count, positions,
charges, molecule ids and static polarizabilities. -/
structure AtomState where
  nlocal : ℕ
  x : List Vec3
  q : List ℚ
  molecule : List ℤ
  static_polarizability : List ℚ
deriving DecidableEq

/-- One off-diagonal 3x3 block entry `T_ij(p,q)` of the dipole field matrix,
for `i < j`, as computed at lines 1536-1565 of the source: minimum-image
displacement, `r² = Σ (xi-xjimage)²`, `r = sqrt(r²)`, saturation
`r3 = r5 = DBL_MAX` when `r == 0`, optional exponential (Thole) damping
terms, and the tensor entry
`-3·d_p·d_q·damping_term2·r5 + δ_pq·damping_term1·r3`. -/
def dfm_pair_block (cfg : PolarConfig) (sqrtQ expQ : ℚ → ℚ)
    (cimg : Vec3 → Vec3 → Vec3) (x : List Vec3) (i j p q : ℕ) : ℚ :=
  let xi := vget x i
  let xjimage := cimg xi (vget x j)
  let r2 := (comp xi 0 - comp xjimage 0) ^ 2 + (comp xi 1 - comp xjimage 1) ^ 2
    + (comp xi 2 - comp xjimage 2) ^ 2
  let r := sqrtQ r2
  let r3 := if r = 0 then DBL_MAX else 1 / (r * r * r)
  let r5 := if r = 0 then DBL_MAX else 1 / (r * r * r * r * r)
  let damping_term1 := if cfg.damping_exponential then
      1 - expQ (-cfg.polar_damp * r)
        * (1/2 * cfg.polar_damp * cfg.polar_damp * r2 + cfg.polar_damp * r + 1)
    else 1
  let damping_term2 := if cfg.damping_exponential then
      1 - expQ (-cfg.polar_damp * r)
        * (cfg.polar_damp * cfg.polar_damp * cfg.polar_damp * r2 * r / 6
           + 1/2 * cfg.polar_damp * cfg.polar_damp * r2 + cfg.polar_damp * r + 1)
    else 1
  (-3) * (comp xi p - comp xjimage p) * (comp xi q - comp xjimage q)
      * damping_term2 * r5
    + (if p = q then damping_term1 * r3 else 0)

/-- The dense `3N × 3N` dipole field matrix built by
`build_dipole_field_matrix()` (lines 1502-1575), as an entry function.
The imperative build zeroes the matrix, writes the diagonal blocks
(`1/alpha_i` on the diagonal, `DBL_MAX` when `alpha_i = 0`, zeros off the
block diagonal), fills every upper block `i < j` with `dfm_pair_block`,
and mirrors each upper block entrywise into the lower block
(`M[jj+p][ii+q] := M[ii+p][jj+q]`, line 1570); each entry is therefore
written to its final value exactly once, which this function returns. -/
def build_dipole_field_matrix (cfg : PolarConfig) (sqrtQ expQ : ℚ → ℚ)
    (cimg : Vec3 → Vec3 → Vec3) (atoms : AtomState) : ℕ → ℕ → ℚ :=
  fun a b =>
    let N := atoms.nlocal
    let i := a / 3
    let p := a % 3
    let j := b / 3
    let q := b % 3
    if i < N ∧ j < N then
      if i = j then
        if p = q then
          (if atoms.static_polarizability.getD i 0 ≠ 0 then
            1 / atoms.static_polarizability.getD i 0
          else DBL_MAX)
        else 0
      else if i < j then dfm_pair_block cfg sqrtQ expQ cimg atoms.x i j p q
      else dfm_pair_block cfg sqrtQ expQ cimg atoms.x j i p q
    else 0

/-- Application of the 3x3 block of the field matrix at block row `i`, block
column `j` to a 3-vector, unrolling the `p`,`q` loops of lines 1424-1426:
component `p` is `Σ_q M[3i+p][3j+q]·v[q]`. -/
def tApply (T : ℕ → ℕ → ℚ) (i j : ℕ) (v : Vec3) : Vec3 :=
  (T (3*i) (3*j) * v.1 + T (3*i) (3*j+1) * v.2.1 + T (3*i) (3*j+2) * v.2.2,
   T (3*i+1) (3*j) * v.1 + T (3*i+1) (3*j+1) * v.2.1 + T (3*i+1) (3*j+2) * v.2.2,
   T (3*i+2) (3*j) * v.1 + T (3*i+2) (3*j+1) * v.2.1 + T (3*i+2) (3*j+2) * v.2.2)

/-- The induced field at particle `index` accumulated by the contraction loop
(lines 1421-1428): starting from the cleared field, subtract
`T_{index,j}·mu_j` for every `j < N` with `j ≠ index`. -/
def ef_induced_at (T : ℕ → ℕ → ℚ) (N : ℕ) (mu : List Vec3) (index : ℕ) : Vec3 :=
  (List.range N).foldl
    (fun acc j => if index ≠ j then acc - tApply T index j (vget mu j) else acc)
    (0, 0, 0)

/-- The mutable pair of dipole arrays carried through one sweep:
`mu` is `mu_induced` (updated in place in Gauss-Seidel mode) and
`mu_new` is `mu_induced_new`. -/
structure SweepState where
  mu : List Vec3
  mu_new : List Vec3
deriving DecidableEq

/-- One sweep of the solver (the `for i` loop at lines 1418-1440): visit the
particles in `ranked` order; for each visited `index` compute the induced
field, set `mu_new[index] := alpha[index]·(ef_static[index] + ef_induced[index])`,
and in Gauss-Seidel mode (`polar_gs || polar_gs_ranked`) also commit
`mu[index] := mu_new[index]` immediately. -/
def do_sweep (cfg : PolarConfig) (T : ℕ → ℕ → ℚ) (N : ℕ) (alpha : List ℚ)
    (ef : List Vec3) (ranked : List ℕ) (mu0 mu_new0 : List Vec3) : SweepState :=
  ranked.foldl
    (fun st index =>
      let efi := ef_induced_at T N st.mu index
      let mn := vscale (alpha.getD index 0) (vget ef index + efi)
      { mu := if cfg.polar_gs || cfg.polar_gs_ranked then st.mu.set index mn else st.mu,
        mu_new := st.mu_new.set index mn })
    ⟨mu0, mu_new0⟩

/-- The convergence measure of lines 1457-1465: the sum over all local
particles and all three components of the squared difference between the
new and the previous-sweep dipoles, divided by `nlocal · 3`. -/
def change_of (N : ℕ) (mu_new mu_old : List Vec3) : ℚ :=
  ((List.range N).foldl
    (fun acc i =>
      let d := vget mu_new i - vget mu_old i
      acc + (d.1 * d.1 + d.2.1 * d.2.1 + d.2.2 * d.2.2))
    0) / ((N : ℚ) * 3)

/-- The commit loop at lines 1478-1482: `mu_induced[i] := mu_induced_new[i]`
for every `i < nlocal` (the arrays have length `nlocal`). -/
def commit_mu (N : ℕ) (mu_new : List Vec3) : List Vec3 :=
  (List.range N).map fun i => vget mu_new i

/-- The divergence reset at lines 1489-1491:
`mu_induced[i] := static_polarizability[i] · ef_static[i]` (no relaxation
factor). -/
def reset_mu (N : ℕ) (alpha : List ℚ) (ef : List Vec3) : List Vec3 :=
  (List.range N).map fun i => vscale (alpha.getD i 0) (vget ef i)

/-- What `DipoleSolverIterative` produces: the final dipole array, the value
of the `iterations` counter that is returned, plus three pure observers of
the run used to state properties: `sweeps` counts executions of the sweep
block, `precision_tests` counts evaluations of the precision-convergence
branch (`fixed_iteration == 0`), and `warned` records whether the divergence
branch issued its `error->warning` and reset the dipoles. -/
structure SolverResult where
  mu : List Vec3
  iterations : ℕ
  sweeps : ℕ
  precision_tests : ℕ
  warned : Bool
deriving DecidableEq

/-- One-or-more passes of the `while (keep_iterating)` loop of
`DipoleSolverIterative` (lines 1405-1497), with an explicit structural
bound `fuel` on the number of remaining passes.  Each pass: snapshot
`mu_old := mu`, run one sweep; in precision mode (`fixed_iteration = false`)
evaluate the convergence test `change > polar_precision²`; in
fixed-iteration mode return as soon as `iterations >= iterations_max`
(before the commit); otherwise commit `mu := mu_new`, increment
`iterations`, and if `iterations > iterations_max` reset the dipoles to
`alpha·E_static`, warn and return; else loop again when the convergence
test failed (or unconditionally in fixed-iteration mode).  A pass recurses
only when `iterations + 1 ≤ iterations_max`, so starting from
`fuel = iterations_max + 1 - iterations` (as `solver_loop` does) the
out-of-fuel case is unreachable; it returns the current state unchanged. -/
def solver_go (cfg : PolarConfig) (T : ℕ → ℕ → ℚ) (N : ℕ) (alpha : List ℚ)
    (ef : List Vec3) (ranked : List ℕ) :
    ℕ → ℕ → ℕ → ℕ → List Vec3 → List Vec3 → SolverResult
  | 0, iterations, sweeps, ptests, mu, _ => ⟨mu, iterations, sweeps, ptests, false⟩
  | fuel + 1, iterations, sweeps, ptests, mu, mu_new =>
    let mu_old := mu
    let st := do_sweep cfg T N alpha ef ranked mu mu_new
    if cfg.fixed_iteration = false then
      let change := change_of N st.mu_new mu_old
      let keep := change > cfg.polar_precision * cfg.polar_precision
      if iterations + 1 > cfg.iterations_max then
        ⟨reset_mu N alpha ef, iterations + 1, sweeps + 1, ptests + 1, true⟩
      else if keep then
        solver_go cfg T N alpha ef ranked fuel (iterations + 1) (sweeps + 1)
          (ptests + 1) (commit_mu N st.mu_new) st.mu_new
      else
        ⟨commit_mu N st.mu_new, iterations + 1, sweeps + 1, ptests + 1, false⟩
    else
      if iterations ≥ cfg.iterations_max then
        ⟨st.mu, iterations, sweeps + 1, ptests, false⟩
      else if iterations + 1 > cfg.iterations_max then
        ⟨reset_mu N alpha ef, iterations + 1, sweeps + 1, ptests, true⟩
      else
        solver_go cfg T N alpha ef ranked fuel (iterations + 1) (sweeps + 1)
          ptests (commit_mu N st.mu_new) st.mu_new

/-- The `while (keep_iterating)` loop, entered with the given counter and
dipole state: `iterations_max + 1 - iterations` bounds the number of passes
the loop can still make (the divergence branch caps the counter), so it is
a sufficient structural fuel for `solver_go`. -/
def solver_loop (cfg : PolarConfig) (T : ℕ → ℕ → ℚ) (N : ℕ) (alpha : List ℚ)
    (ef : List Vec3) (ranked : List ℕ) (iterations sweeps ptests : ℕ)
    (mu mu_new : List Vec3) : SolverResult :=
  solver_go cfg T N alpha ef ranked (cfg.iterations_max + 1 - iterations)
    iterations sweeps ptests mu mu_new

/-- The body of one bubble-sort pass, carrying the element currently in the
left position of the compared pair: compare it with the next element, swap
when its rank metric is smaller (recording that the pass was not sorted),
and continue down the array. -/
def bubble_pass_aux (metric : List ℚ) : ℕ → List ℕ → List ℕ × Bool
  | a, [] => ([a], true)
  | a, b :: rest =>
    if metric.getD a 0 < metric.getD b 0 then
      let r := bubble_pass_aux metric a rest
      (b :: r.1, false)
    else
      let r := bubble_pass_aux metric b rest
      (a :: r.1, r.2)

/-- One pass of the bubble sort at lines 1393-1400 over the `ranked_array`:
adjacent elements are swapped when the rank metric of the left one is
smaller; the boolean is the `sorted` flag (no swap happened in the pass). -/
def bubble_pass (metric : List ℚ) : List ℕ → List ℕ × Bool
  | [] => ([], true)
  | a :: rest => bubble_pass_aux metric a rest

/-- The outer bubble-sort loop (line 1392, at most `nlocal` passes, breaking
early once a pass performs no swap). -/
def bubble_iter (metric : List ℚ) : ℕ → List ℕ → List ℕ
  | 0, arr => arr
  | n + 1, arr =>
    let r := bubble_pass metric arr
    if r.2 then r.1 else bubble_iter metric n r.1

/-- The visiting order used by the sweeps: `ranked_array` is initialised to
the identity (line 1387) and bubble-sorted by descending `rank_metric` when
`polar_gs_ranked` is set (lines 1390-1403). -/
def ranked_order (cfg : PolarConfig) (rank_metric : List ℚ) (N : ℕ) : List ℕ :=
  let r0 := List.range N
  if cfg.polar_gs_ranked then bubble_iter rank_metric N r0 else r0

/-- The solver entry point `DipoleSolverIterative()` (lines 1373-1498):
build the dipole field
matrix, rank the visiting order, then run the iteration loop starting from
the dipoles left in `atom->mu_induced` by `compute` (`mu0`), with all
counters at zero.  (`mu_induced_new` is written by a full sweep before it is
ever read, so its initial contents are immaterial; we pass `mu0`.) -/
def DipoleSolverIterative (cfg : PolarConfig) (sqrtQ expQ : ℚ → ℚ)
    (cimg : Vec3 → Vec3 → Vec3) (atoms : AtomState)
    (ef_static mu0 : List Vec3) (rank_metric : List ℚ) : SolverResult :=
  let T := build_dipole_field_matrix cfg sqrtQ expQ cimg atoms
  let ranked := ranked_order cfg rank_metric atoms.nlocal
  solver_loop cfg T atoms.nlocal atoms.static_polarizability ef_static ranked
    0 0 0 mu0 mu0

/-- The static-field contribution of one unordered pair `(i, j)` in the
minimum-image loop of `compute` (lines 324-349): inside the cutoff
(`rsq <= cut_coulsq`, with `cut_coulsq = cut_coul²` from `init_style`) and
when the molecule rule admits the pair
(`molecule[i] != molecule[j] || molecule[i] == 0`), the Wolf-shifted kernel
`dvdrr = 1/rsq + f_shift`, `f_shift = -1/cut_coul²`, `ef_temp = dvdrr·(1/r)`
adds `ef_temp·q_j·del` to `ef_static[i]` and `-ef_temp·q_i·del` to
`ef_static[j]`.  Returns that pair of increments. -/
def ef_static_pair (cut_coul : ℚ) (sqrtQ : ℚ → ℚ) (cimg : Vec3 → Vec3 → Vec3)
    (xi xj : Vec3) (qi qj : ℚ) (mi mj : ℤ) : Vec3 × Vec3 :=
  let xjimage := cimg xi xj
  let del : Vec3 := xi - xjimage
  let rsq := del.1 * del.1 + del.2.1 * del.2.1 + del.2.2 * del.2.2
  if rsq ≤ cut_coul * cut_coul then
    if mi ≠ mj ∨ mi = 0 then
      let r := sqrtQ rsq
      let f_shift := -(1 / (cut_coul * cut_coul))
      let dvdrr := 1 / rsq + f_shift
      let ef_temp := dvdrr * (1 / r)
      ((ef_temp * qj * del.1, ef_temp * qj * del.2.1, ef_temp * qj * del.2.2),
       (-(ef_temp * qi * del.1), -(ef_temp * qi * del.2.1), -(ef_temp * qi * del.2.2)))
    else ((0, 0, 0), (0, 0, 0))
  else ((0, 0, 0), (0, 0, 0))

/-- The same pair kernel with the molecule-exclusion test removed (only the
cutoff guard remains).  This is a comparison definition used to state that
molecule id 0 is never excluded; it is not a separate code path. -/
def ef_static_pair_unexcluded (cut_coul : ℚ) (sqrtQ : ℚ → ℚ)
    (cimg : Vec3 → Vec3 → Vec3) (xi xj : Vec3) (qi qj : ℚ) : Vec3 × Vec3 :=
  let xjimage := cimg xi xj
  let del : Vec3 := xi - xjimage
  let rsq := del.1 * del.1 + del.2.1 * del.2.1 + del.2.2 * del.2.2
  if rsq ≤ cut_coul * cut_coul then
    let r := sqrtQ rsq
    let f_shift := -(1 / (cut_coul * cut_coul))
    let dvdrr := 1 / rsq + f_shift
    let ef_temp := dvdrr * (1 / r)
    ((ef_temp * qj * del.1, ef_temp * qj * del.2.1, ef_temp * qj * del.2.2),
     (-(ef_temp * qi * del.1), -(ef_temp * qi * del.2.1), -(ef_temp * qi * del.2.2)))
  else ((0, 0, 0), (0, 0, 0))

/-- The self-interaction energy term of one particle (lines 420-422):
`0.5·|mu_i|²/alpha_i`, accumulated only when energy is requested and
`static_polarizability[i] != 0`. -/
def u_polar_self_term (eflag : Bool) (mu : Vec3) (alpha : ℚ) : ℚ :=
  if eflag ∧ alpha ≠ 0 then
    1/2 * (mu.1 * mu.1 + mu.2.1 * mu.2.1 + mu.2.2 * mu.2.2) / alpha
  else 0

/-- The full self-energy sum `u_polar_self` over the local particles. -/
def u_polar_self (eflag : Bool) (N : ℕ) (mu : List Vec3) (alpha : List ℚ) : ℚ :=
  (List.range N).foldl
    (fun acc i => acc + u_polar_self_term eflag (vget mu i) (alpha.getD i 0)) 0

/-- Division with an explicit failure value: `none` models the IEEE
infinity/NaN produced by a `double` division by zero; machine division never
traps, so `none` marks exactly the points where a non-finite value is
created and would propagate. -/
def qdivOpt (a b : ℚ) : Option ℚ := if b = 0 then none else some (a / b)

/-- The 3x3 charge-dipole force tensor applied to a dipole `mu` — the
common bracketed expressions of lines 455-463 (and identically 478-486):
row `x` is `mu_x·((-2xsq+ysq+zsq)·r2inv + f_shift·(ysq+zsq))
+ mu_y·(-3·dx·dy·r2inv - f_shift·dx·dy) + mu_z·(-3·dx·dz·r2inv - f_shift·dx·dz)`,
and cyclically. -/
def cdTensorApply (f_shift : ℚ) (del : Vec3) (r2inv : ℚ) (mu : Vec3) : Vec3 :=
  let xsq := del.1 * del.1
  let ysq := del.2.1 * del.2.1
  let zsq := del.2.2 * del.2.2
  (mu.1 * ((-2 * xsq + ysq + zsq) * r2inv + f_shift * (ysq + zsq))
     + mu.2.1 * (-3 * del.1 * del.2.1 * r2inv - f_shift * del.1 * del.2.1)
     + mu.2.2 * (-3 * del.1 * del.2.2 * r2inv - f_shift * del.1 * del.2.2),
   mu.1 * (-3 * del.1 * del.2.1 * r2inv - f_shift * del.1 * del.2.1)
     + mu.2.1 * ((-2 * ysq + xsq + zsq) * r2inv + f_shift * (xsq + zsq))
     + mu.2.2 * (-3 * del.2.1 * del.2.2 * r2inv - f_shift * del.2.1 * del.2.2),
   mu.1 * (-3 * del.1 * del.2.2 * r2inv - f_shift * del.1 * del.2.2)
     + mu.2.1 * (-3 * del.2.1 * del.2.2 * r2inv - f_shift * del.2.1 * del.2.2)
     + mu.2.2 * ((-2 * zsq + xsq + ysq) * r2inv + f_shift * (xsq + ysq)))

/-- The dipole-dipole force and energy of one pair (lines 500-590), in both
damping branches.  Returns `(force_on_i, energy_increment)`; the energy is
tallied by the caller only under `eflag`.  This block carries no molecule
guard in the source — only the `alpha_i != 0 && alpha_j != 0` guard, applied
by the caller. -/
def dd_pair (dampExp : Bool) (pd : ℚ) (expQ : ℚ → ℚ) (del : Vec3)
    (r rinv r2inv r3inv : ℚ) (mui muj : Vec3) : Vec3 × ℚ :=
  let r5inv := r3inv * r2inv
  let r7inv := r5inv * r2inv
  let pdotp := mui.1 * muj.1 + mui.2.1 * muj.2.1 + mui.2.2 * muj.2.2
  let pidotr := mui.1 * del.1 + mui.2.1 * del.2.1 + mui.2.2 * del.2.2
  let pjdotr := muj.1 * del.1 + muj.2.1 * del.2.1 + muj.2.2 * del.2.2
  if dampExp then
    let term_1 := expQ (-pd * r)
    let term_2 := 1 + pd * r + 1/2 * pd * pd * r * r
    let term_3 := 1 + pd * r + 1/2 * pd * pd * r * r + 1/6 * pd * pd * pd * r * r * r
    let pre1 := 3 * r5inv * pdotp * (1 - term_1 * term_2)
      - 15 * r7inv * pidotr * pjdotr * (1 - term_1 * term_3)
    let pre2 := 3 * r5inv * pjdotr * (1 - term_1 * term_3)
    let pre3 := 3 * r5inv * pidotr * (1 - term_1 * term_3)
    let pre4 := -pdotp * r3inv * (-term_1 * (pd * rinv + pd * pd)
      + term_1 * pd * term_2 * rinv)
    let pre5 := 3 * pidotr * pjdotr * r5inv
      * (-term_1 * (pd * rinv + pd * pd + 1/2 * r * pd * pd * pd)
         + term_1 * pd * term_3 * rinv)
    ((pre1 * del.1 + pre2 * mui.1 + pre3 * muj.1 + pre4 * del.1 + pre5 * del.1,
      pre1 * del.2.1 + pre2 * mui.2.1 + pre3 * muj.2.1 + pre4 * del.2.1 + pre5 * del.2.1,
      pre1 * del.2.2 + pre2 * mui.2.2 + pre3 * muj.2.2 + pre4 * del.2.2 + pre5 * del.2.2),
     r3inv * pdotp * (1 - term_1 * term_2) - 3 * r5inv * pidotr * pjdotr * (1 - term_1 * term_3))
  else
    let pre1 := 3 * r5inv * pdotp - 15 * r7inv * pidotr * pjdotr
    let pre2 := 3 * r5inv * pjdotr
    let pre3 := 3 * r5inv * pidotr
    ((pre1 * del.1 + pre2 * mui.1 + pre3 * muj.1,
      pre1 * del.2.1 + pre2 * mui.2.1 + pre3 * muj.2.1,
      pre1 * del.2.2 + pre2 * mui.2.2 + pre3 * muj.2.2),
     r3inv * pdotp - 3 * r5inv * pidotr * pjdotr)

/-- The polarization force/energy contribution of one unordered pair `(i, j)`
in the dipole-force loop of `compute` (lines 424-618): minimum-image
displacement, the unguarded `r2inv = 1/rsq`, `rinv = sqrt(r2inv)`,
`r = 1/rinv`, `r3inv = r2inv·rinv` prefix (lines 435-438 — `none` when a
division by zero occurs there), then the molecule- and cutoff-guarded
charge-dipole force/energy (lines 442-497) and the alpha-guarded
dipole-dipole force/energy (lines 499-590).  Returns
`(forcecoul, u_polar_ef increment, u_polar_dd increment)`. -/
def polar_pair (cut_coul qqrd2e : ℚ) (dampExp : Bool) (pd : ℚ)
    (sqrtQ expQ : ℚ → ℚ) (cimg : Vec3 → Vec3 → Vec3) (xi xj : Vec3)
    (qi qj : ℚ) (mi mj : ℤ) (mui muj : Vec3) (ai aj : ℚ) (eflag : Bool) :
    Option (Vec3 × ℚ × ℚ) := do
  let xjimage := cimg xi xj
  let del : Vec3 := xi - xjimage
  let rsq := del.1 * del.1 + del.2.1 * del.2.1 + del.2.2 * del.2.2
  let r2inv ← qdivOpt 1 rsq
  let rinv := sqrtQ r2inv
  let r ← qdivOpt 1 rinv
  let r3inv := r2inv * rinv
  let f_shift := -(1 / (cut_coul * cut_coul))
  let ecsl := sqrtQ qqrd2e
  let cd : Vec3 × ℚ :=
    if rsq < cut_coul * cut_coul ∧ (mi ≠ mj ∨ mi = 0) then
      let dvdrr := 1 / rsq + f_shift
      let ef_temp := dvdrr * (1 / r) * ecsl
      let part1 : Vec3 × ℚ :=
        if ai ≠ 0 ∧ qj ≠ 0 then
          (vscale (qj * ecsl * r3inv) (cdTensorApply f_shift del r2inv mui),
           if eflag then
             -(mui.1 * (ef_temp * qj * del.1) + mui.2.1 * (ef_temp * qj * del.2.1)
               + mui.2.2 * (ef_temp * qj * del.2.2))
           else 0)
        else ((0, 0, 0), 0)
      let part2 : Vec3 × ℚ :=
        if aj ≠ 0 ∧ qi ≠ 0 then
          (vscale (-(qi * ecsl * r3inv)) (cdTensorApply f_shift del r2inv muj),
           if eflag then
             muj.1 * (ef_temp * qi * del.1) + muj.2.1 * (ef_temp * qi * del.2.1)
               + muj.2.2 * (ef_temp * qi * del.2.2)
           else 0)
        else ((0, 0, 0), 0)
      (part1.1 + part2.1, part1.2 + part2.2)
    else ((0, 0, 0), 0)
  let dd : Vec3 × ℚ :=
    if ai ≠ 0 ∧ aj ≠ 0 then dd_pair dampExp pd expQ del r rinv r2inv r3inv mui muj
    else ((0, 0, 0), 0)
  pure (cd.1 + dd.1, cd.2, if eflag then dd.2 else 0)

/-- The initial guess set by `compute` at lines 364-374 (the
`use_previous == 0` path): `mu_i := polar_gamma · (alpha_i · E_static_i)`,
with `ef` already scaled into internal units. -/
def init_guess (gamma : ℚ) (alpha : List ℚ) (ef : List Vec3) : List Vec3 :=
  (List.range ef.length).map fun i => vscale gamma (vscale (alpha.getD i 0) (vget ef i))

/-! ### Helper lemmas -/

lemma vget_map_range (f : ℕ → Vec3) (n i : ℕ) :
    vget ((List.range n).map f) i = if i < n then f i else (0, 0, 0) := by
  by_cases h : i < n
  · simp [vget, List.getD, List.getElem?_map, List.getElem?_range h, h]
  · simp only [vget, List.getD]
    rw [List.get?_eq_none.mpr (by simpa using Nat.le_of_not_lt h)]
    simp [h]

lemma vget_set_ne (l : List Vec3) (k i : ℕ) (v : Vec3) (h : k ≠ i) :
    vget (l.set k v) i = vget l i := by
  simp [vget, List.getD, List.getElem?_set_ne h]

lemma vget_set_self (l : List Vec3) (i : ℕ) (v : Vec3) (h : i < l.length) :
    vget (l.set i v) i = v := by
  simp [vget, List.getD, List.getElem?_set_self, h]

lemma commit_mu_length (N : ℕ) (mn : List Vec3) : (commit_mu N mn).length = N := by
  simp [commit_mu]

lemma reset_mu_length (N : ℕ) (alpha : List ℚ) (ef : List Vec3) :
    (reset_mu N alpha ef).length = N := by
  simp [reset_mu]

lemma vget_commit_mu (N : ℕ) (mn : List Vec3) (i : ℕ) (h : i < N) :
    vget (commit_mu N mn) i = vget mn i := by
  simp [commit_mu, vget_map_range, h]

lemma vget_reset_mu (N : ℕ) (alpha : List ℚ) (ef : List Vec3) (i : ℕ) (h : i < N) :
    vget (reset_mu N alpha ef) i = vscale (alpha.getD i 0) (vget ef i) := by
  simp [reset_mu, vget_map_range, h]

lemma vscale_zero (v : Vec3) : vscale 0 v = (0, 0, 0) := by
  simp [vscale]

lemma natSqrt_zero : natSqrt 0 = 0 := rfl

lemma natSqrt_one : natSqrt 1 = 1 := rfl

lemma ratSqrt_zero : ratSqrt 0 = 0 := by
  rw [ratSqrt]
  norm_num [natSqrt_zero]

/-! ### C5: block symmetry of the dipole field matrix -/

lemma dfm_pair_block_symm (cfg : PolarConfig) (sqrtQ expQ : ℚ → ℚ)
    (cimg : Vec3 → Vec3 → Vec3) (x : List Vec3) (i j p q : ℕ) :
    dfm_pair_block cfg sqrtQ expQ cimg x i j p q
      = dfm_pair_block cfg sqrtQ expQ cimg x i j q p := by
  unfold dfm_pair_block
  by_cases hpq : p = q
  · simp [hpq]
  · simp only [if_neg hpq, if_neg (Ne.symm hpq)]
    ring

/-- C5.  For every particle configuration, every pair `i ≠ j` of local
particles and every component pair `p, q < 3`, the 3x3 blocks of the built
dipole field matrix satisfy `T_ij(p,q) = T_ji(q,p)`, i.e. each off-diagonal
block equals the transpose of its mirror block. -/
theorem c5_matrix_block_symmetry (cfg : PolarConfig) (sqrtQ expQ : ℚ → ℚ)
    (cimg : Vec3 → Vec3 → Vec3) (atoms : AtomState) (i j p q : ℕ)
    (hi : i < atoms.nlocal) (hj : j < atoms.nlocal) (hij : i ≠ j)
    (hp : p < 3) (hq : q < 3) :
    build_dipole_field_matrix cfg sqrtQ expQ cimg atoms (3*i+p) (3*j+q)
      = build_dipole_field_matrix cfg sqrtQ expQ cimg atoms (3*j+q) (3*i+p) := by
  unfold build_dipole_field_matrix
  have e1 : (3*i+p) / 3 = i := by omega
  have e2 : (3*i+p) % 3 = p := by omega
  have e3 : (3*j+q) / 3 = j := by omega
  have e4 : (3*j+q) % 3 = q := by omega
  have h1 : i < atoms.nlocal ∧ j < atoms.nlocal := ⟨hi, hj⟩
  have h2 : j < atoms.nlocal ∧ i < atoms.nlocal := ⟨hj, hi⟩
  simp only [e1, e2, e3, e4, if_pos h1, if_pos h2, if_neg hij, if_neg (Ne.symm hij)]
  rcases Nat.lt_or_ge i j with hlt | hge
  · rw [if_pos hlt, if_neg (by omega : ¬ j < i)]
    exact dfm_pair_block_symm cfg sqrtQ expQ cimg atoms.x i j p q
  · have hlt : j < i := by omega
    rw [if_neg (by omega : ¬ i < j), if_pos hlt]
    exact (dfm_pair_block_symm cfg sqrtQ expQ cimg atoms.x j i q p).symm

/-- Witness for C5 at a concrete two-particle configuration. -/
theorem c5_matrix_block_symmetry_witness :
    (0 < 2 ∧ 1 < 2 ∧ (0 : ℕ) ≠ 1 ∧ 0 < 3 ∧ 1 < 3) ∧
      build_dipole_field_matrix ⟨false, true, false, 50, 1, 1, false, 1⟩
          ratSqrt (fun _ => 0) idImage ⟨2, [(0,0,0),(1,2,0)], [1,1], [0,0], [1,1]⟩
          (3*0+0) (3*1+1)
        = build_dipole_field_matrix ⟨false, true, false, 50, 1, 1, false, 1⟩
          ratSqrt (fun _ => 0) idImage ⟨2, [(0,0,0),(1,2,0)], [1,1], [0,0], [1,1]⟩
          (3*1+1) (3*0+0) :=
  ⟨⟨by decide, by decide, by decide, by decide, by decide⟩,
    c5_matrix_block_symmetry ⟨false, true, false, 50, 1, 1, false, 1⟩
      ratSqrt (fun _ => 0) idImage ⟨2, [(0,0,0),(1,2,0)], [1,1], [0,0], [1,1]⟩
      0 1 0 1 (by decide) (by decide) (by decide) (by decide) (by decide)⟩

/-! ### Fixed-iteration mode: loop behaviour -/

lemma solver_go_fixed_spec (cfg : PolarConfig) (T : ℕ → ℕ → ℚ) (N : ℕ)
    (alpha : List ℚ) (ef : List Vec3) (ranked : List ℕ)
    (hfix : cfg.fixed_iteration = true) :
    ∀ n k s pt mu mn, k ≤ cfg.iterations_max → cfg.iterations_max + 1 - k ≤ n →
      (solver_go cfg T N alpha ef ranked n k s pt mu mn).sweeps
        = s + (cfg.iterations_max - k) + 1 ∧
      (solver_go cfg T N alpha ef ranked n k s pt mu mn).iterations
        = cfg.iterations_max ∧
      (solver_go cfg T N alpha ef ranked n k s pt mu mn).precision_tests = pt ∧
      (solver_go cfg T N alpha ef ranked n k s pt mu mn).warned = false := by
  intro n
  induction n with
  | zero =>
    intro k s pt mu mn hk hfuel
    omega
  | succ n ih =>
    intro k s pt mu mn hk hfuel
    rcases Nat.lt_or_ge k cfg.iterations_max with hlt | hge
    · rw [solver_go]
      simp only [hfix, Bool.true_eq_false, if_false,
        if_neg (by omega : ¬ k ≥ cfg.iterations_max),
        if_neg (by omega : ¬ k + 1 > cfg.iterations_max)]
      have h := ih (k+1) (s+1) pt
        (commit_mu N (do_sweep cfg T N alpha ef ranked mu mn).mu_new)
        (do_sweep cfg T N alpha ef ranked mu mn).mu_new
        (by omega) (by omega)
      refine ⟨?_, h.2.1, h.2.2.1, h.2.2.2⟩
      rw [h.1]; omega
    · rw [solver_go]
      simp [hfix, show k ≥ cfg.iterations_max from hge]
      omega

lemma solver_loop_fixed_spec (cfg : PolarConfig) (T : ℕ → ℕ → ℚ) (N : ℕ)
    (alpha : List ℚ) (ef : List Vec3) (ranked : List ℕ)
    (hfix : cfg.fixed_iteration = true) (k s pt : ℕ) (mu mn : List Vec3)
    (hk : k ≤ cfg.iterations_max) :
    (solver_loop cfg T N alpha ef ranked k s pt mu mn).sweeps
      = s + (cfg.iterations_max - k) + 1 ∧
    (solver_loop cfg T N alpha ef ranked k s pt mu mn).iterations
      = cfg.iterations_max ∧
    (solver_loop cfg T N alpha ef ranked k s pt mu mn).precision_tests = pt ∧
    (solver_loop cfg T N alpha ef ranked k s pt mu mn).warned = false :=
  solver_go_fixed_spec cfg T N alpha ef ranked hfix _ k s pt mu mn hk le_rfl

/-- C2 (counterexample to the claim as stated).  With `fixed_iteration` on
and `iterations_max = 0` on a one-particle system, the solver performs one
sweep, not `iterations_max = 0` sweeps: the loop body always runs a sweep
before the `iterations >= iterations_max` check is reached. -/
theorem c2_counterexample :
    (DipoleSolverIterative ⟨false, true, true, 0, 1/100000000000, 103/100, false, 21304/10000⟩
        ratSqrt (fun _ => 0) idImage ⟨1, [(0,0,0)], [0], [0], [1]⟩
        [(1,0,0)] (init_guess (103/100) [1] [(1,0,0)]) [0]).sweeps ≠ 0 := by
  decide

/-- C2 (amended).  In fixed-iteration mode the solver performs exactly
`iterations_max + 1` sweeps (one more than the claim states: the first sweep
runs before the counter test), never evaluates the precision-convergence
branch, and returns with the iteration counter equal to `iterations_max`. -/
theorem c2_fixed_iteration_sweep_count (cfg : PolarConfig) (sqrtQ expQ : ℚ → ℚ)
    (cimg : Vec3 → Vec3 → Vec3) (atoms : AtomState) (ef mu0 : List Vec3)
    (metric : List ℚ) (hfix : cfg.fixed_iteration = true) :
    (DipoleSolverIterative cfg sqrtQ expQ cimg atoms ef mu0 metric).sweeps
        = cfg.iterations_max + 1 ∧
      (DipoleSolverIterative cfg sqrtQ expQ cimg atoms ef mu0 metric).precision_tests
        = 0 ∧
      (DipoleSolverIterative cfg sqrtQ expQ cimg atoms ef mu0 metric).iterations
        = cfg.iterations_max := by
  have h := solver_loop_fixed_spec cfg
    (build_dipole_field_matrix cfg sqrtQ expQ cimg atoms) atoms.nlocal
    atoms.static_polarizability ef (ranked_order cfg metric atoms.nlocal) hfix
    0 0 0 mu0 mu0 (by omega)
  exact ⟨by simpa [DipoleSolverIterative] using h.1,
    by simpa [DipoleSolverIterative] using h.2.2.1,
    by simpa [DipoleSolverIterative] using h.2.1⟩

/-- Witness for C2 (amended) at a concrete input. -/
theorem c2_fixed_iteration_sweep_count_witness :
    ((⟨false, true, true, 2, 1/100000000000, 103/100, false, 21304/10000⟩ : PolarConfig).fixed_iteration = true) ∧
      (DipoleSolverIterative ⟨false, true, true, 2, 1/100000000000, 103/100, false, 21304/10000⟩
          ratSqrt (fun _ => 0) idImage ⟨1, [(0,0,0)], [0], [0], [1]⟩
          [(1,0,0)] (init_guess (103/100) [1] [(1,0,0)]) [0]).sweeps = 2 + 1 ∧
      (DipoleSolverIterative ⟨false, true, true, 2, 1/100000000000, 103/100, false, 21304/10000⟩
          ratSqrt (fun _ => 0) idImage ⟨1, [(0,0,0)], [0], [0], [1]⟩
          [(1,0,0)] (init_guess (103/100) [1] [(1,0,0)]) [0]).precision_tests = 0 ∧
      (DipoleSolverIterative ⟨false, true, true, 2, 1/100000000000, 103/100, false, 21304/10000⟩
          ratSqrt (fun _ => 0) idImage ⟨1, [(0,0,0)], [0], [0], [1]⟩
          [(1,0,0)] (init_guess (103/100) [1] [(1,0,0)]) [0]).iterations = 2 :=
  ⟨rfl, c2_fixed_iteration_sweep_count _ ratSqrt (fun _ => 0) idImage
    ⟨1, [(0,0,0)], [0], [0], [1]⟩ [(1,0,0)] (init_guess (103/100) [1] [(1,0,0)]) [0] rfl⟩

/-- C9.  When fixed-iteration mode is enabled the solver returns at the
`iterations >= iterations_max` test before the divergence-detection branch
can ever execute: the divergence reset and its warning are unreachable
(`warned = false` on every fixed-iteration run). -/
theorem c9_no_divergence_in_fixed_mode (cfg : PolarConfig) (sqrtQ expQ : ℚ → ℚ)
    (cimg : Vec3 → Vec3 → Vec3) (atoms : AtomState) (ef mu0 : List Vec3)
    (metric : List ℚ) (hfix : cfg.fixed_iteration = true) :
    (DipoleSolverIterative cfg sqrtQ expQ cimg atoms ef mu0 metric).warned = false := by
  have h := solver_loop_fixed_spec cfg
    (build_dipole_field_matrix cfg sqrtQ expQ cimg atoms) atoms.nlocal
    atoms.static_polarizability ef (ranked_order cfg metric atoms.nlocal) hfix
    0 0 0 mu0 mu0 (by omega)
  simpa [DipoleSolverIterative] using h.2.2.2

/-- Witness for C9 at a concrete input. -/
theorem c9_no_divergence_in_fixed_mode_witness :
    ((⟨false, true, true, 1, 1/100000000000, 103/100, false, 21304/10000⟩ : PolarConfig).fixed_iteration = true) ∧
      (DipoleSolverIterative ⟨false, true, true, 1, 1/100000000000, 103/100, false, 21304/10000⟩
          ratSqrt (fun _ => 0) idImage ⟨2, [(0,0,0),(1,0,0)], [1,0], [0,0], [1,1]⟩
          [(1,0,0),(0,0,0)] (init_guess (103/100) [1,1] [(1,0,0),(0,0,0)]) [0,0]).warned = false :=
  ⟨rfl, c9_no_divergence_in_fixed_mode _ ratSqrt (fun _ => 0) idImage
    ⟨2, [(0,0,0),(1,0,0)], [1,0], [0,0], [1,1]⟩ [(1,0,0),(0,0,0)]
    (init_guess (103/100) [1,1] [(1,0,0),(0,0,0)]) [0,0] rfl⟩

lemma add_zero_vec (v : Vec3) : v + ((0 : ℚ), (0 : ℚ), (0 : ℚ)) = v := by
  obtain ⟨a, b, c⟩ := v
  simp [Prod.mk_add_mk]

/-- C1 (counterexample to the claim as stated).  Two polarizable particles,
`alpha = 1` each, at distance 1, static field `(1,0,0)` on particle 0 and
`(0,0,0)` on particle 1, Gauss-Seidel updates, no damping, `fixed_iteration`
on with `iterations_max = 0`: the solver still performs one sweep, and the
final dipole of particle 1 is `(2,0,0)` — not
`alpha_1 · E_static_1 = (0,0,0)` as the claim asserts. -/
theorem c1_counterexample :
    (DipoleSolverIterative ⟨true, false, true, 0, 1/100000000000, 103/100, false, 21304/10000⟩
        ratSqrt (fun _ => 0) idImage ⟨2, [(0,0,0),(1,0,0)], [1,0], [0,0], [1,1]⟩
        [(1,0,0),(0,0,0)] (init_guess (103/100) [1,1] [(1,0,0),(0,0,0)]) [0,0]).mu
      = [(1,0,0),(2,0,0)] ∧
    vget (DipoleSolverIterative ⟨true, false, true, 0, 1/100000000000, 103/100, false, 21304/10000⟩
        ratSqrt (fun _ => 0) idImage ⟨2, [(0,0,0),(1,0,0)], [1,0], [0,0], [1,1]⟩
        [(1,0,0),(0,0,0)] (init_guess (103/100) [1,1] [(1,0,0),(0,0,0)]) [0,0]).mu 1
      ≠ vscale 1 (vget [(1,0,0),(0,0,0)] 1) := by
  with_unfolding_all decide

/-- C1 (amended).  With `fixed_iteration` mode and `iterations_max = 0` the
solver returns without error (`warned = false`, return value 0) after
performing exactly one sweep; the dipoles it leaves are the result of that
one sweep applied to the relaxed initial guess — each updated dipole is
`alpha_i·(E_static_i + E_induced_i)`, with no relaxation factor on the
update itself.  Only when no dipole-dipole coupling arises does this reduce
to `alpha_i·E_static_i`; in particular, for a single-particle system under
Gauss-Seidel updating the returned dipole is exactly `alpha_0·E_static_0`. -/
theorem c1_fixed_zero_iterations_one_sweep (cfg : PolarConfig)
    (sqrtQ expQ : ℚ → ℚ) (cimg : Vec3 → Vec3 → Vec3) (atoms : AtomState)
    (ef mu0 : List Vec3) (metric : List ℚ)
    (hfix : cfg.fixed_iteration = true) (hmax : cfg.iterations_max = 0) :
    (DipoleSolverIterative cfg sqrtQ expQ cimg atoms ef mu0 metric).warned = false ∧
    (DipoleSolverIterative cfg sqrtQ expQ cimg atoms ef mu0 metric).iterations = 0 ∧
    (DipoleSolverIterative cfg sqrtQ expQ cimg atoms ef mu0 metric).sweeps = 1 ∧
    (DipoleSolverIterative cfg sqrtQ expQ cimg atoms ef mu0 metric).mu
      = (do_sweep cfg (build_dipole_field_matrix cfg sqrtQ expQ cimg atoms)
          atoms.nlocal atoms.static_polarizability ef
          (ranked_order cfg metric atoms.nlocal) mu0 mu0).mu ∧
    (atoms.nlocal = 1 → (cfg.polar_gs || cfg.polar_gs_ranked) = true →
      mu0.length = 1 →
      (DipoleSolverIterative cfg sqrtQ expQ cimg atoms ef mu0 metric).mu
        = [vscale (atoms.static_polarizability.getD 0 0) (vget ef 0)]) := by
  have hbody : DipoleSolverIterative cfg sqrtQ expQ cimg atoms ef mu0 metric
      = ⟨(do_sweep cfg (build_dipole_field_matrix cfg sqrtQ expQ cimg atoms)
            atoms.nlocal atoms.static_polarizability ef
            (ranked_order cfg metric atoms.nlocal) mu0 mu0).mu, 0, 1, 0, false⟩ := by
    rw [DipoleSolverIterative, solver_loop]
    simp [solver_go, hfix, hmax]
  have hr1 : List.range 1 = [0] := rfl
  refine ⟨by rw [hbody], by rw [hbody], by rw [hbody], by rw [hbody], ?_⟩
  intro h1 hgs hlen
  rw [hbody]
  have hranked : ranked_order cfg metric atoms.nlocal = [0] := by
    unfold ranked_order
    rw [h1, hr1]
    by_cases hb : cfg.polar_gs_ranked = true <;>
      simp [hb, show bubble_iter metric 1 [0] = [0] from rfl]
  rcases mu0 with _ | ⟨v, tl⟩
  · simp at hlen
  · rcases tl with _ | ⟨w, tl⟩
    · rw [hranked, h1]
      simp only [do_sweep, List.foldl_cons, List.foldl_nil, hgs, if_true]
      have hefi : ef_induced_at
          (build_dipole_field_matrix cfg sqrtQ expQ cimg atoms) 1 [v] 0
          = (0, 0, 0) := by
        simp [ef_induced_at, hr1]
      rw [hefi, add_zero_vec]
      rfl
    · simp at hlen

/-- Witness for C1 (amended) at a concrete one-particle input. -/
theorem c1_fixed_zero_iterations_one_sweep_witness :
    ((⟨false, true, true, 0, 1/100000000000, 103/100, false, 21304/10000⟩ : PolarConfig).fixed_iteration = true ∧
     (⟨false, true, true, 0, 1/100000000000, 103/100, false, 21304/10000⟩ : PolarConfig).iterations_max = 0) ∧
    ((DipoleSolverIterative ⟨false, true, true, 0, 1/100000000000, 103/100, false, 21304/10000⟩
        ratSqrt (fun _ => 0) idImage ⟨1, [(0,0,0)], [1], [0], [1]⟩
        [(1,0,0)] (init_guess (103/100) [1] [(1,0,0)]) [0]).warned = false ∧
     (DipoleSolverIterative ⟨false, true, true, 0, 1/100000000000, 103/100, false, 21304/10000⟩
        ratSqrt (fun _ => 0) idImage ⟨1, [(0,0,0)], [1], [0], [1]⟩
        [(1,0,0)] (init_guess (103/100) [1] [(1,0,0)]) [0]).iterations = 0 ∧
     (DipoleSolverIterative ⟨false, true, true, 0, 1/100000000000, 103/100, false, 21304/10000⟩
        ratSqrt (fun _ => 0) idImage ⟨1, [(0,0,0)], [1], [0], [1]⟩
        [(1,0,0)] (init_guess (103/100) [1] [(1,0,0)]) [0]).sweeps = 1 ∧
     (DipoleSolverIterative ⟨false, true, true, 0, 1/100000000000, 103/100, false, 21304/10000⟩
        ratSqrt (fun _ => 0) idImage ⟨1, [(0,0,0)], [1], [0], [1]⟩
        [(1,0,0)] (init_guess (103/100) [1] [(1,0,0)]) [0]).mu
       = (do_sweep ⟨false, true, true, 0, 1/100000000000, 103/100, false, 21304/10000⟩
           (build_dipole_field_matrix ⟨false, true, true, 0, 1/100000000000, 103/100, false, 21304/10000⟩
             ratSqrt (fun _ => 0) idImage ⟨1, [(0,0,0)], [1], [0], [1]⟩)
           1 [1] [(1,0,0)]
           (ranked_order ⟨false, true, true, 0, 1/100000000000, 103/100, false, 21304/10000⟩ [0] 1)
           (init_guess (103/100) [1] [(1,0,0)]) (init_guess (103/100) [1] [(1,0,0)])).mu ∧
     (DipoleSolverIterative ⟨false, true, true, 0, 1/100000000000, 103/100, false, 21304/10000⟩
        ratSqrt (fun _ => 0) idImage ⟨1, [(0,0,0)], [1], [0], [1]⟩
        [(1,0,0)] (init_guess (103/100) [1] [(1,0,0)]) [0]).mu
       = [vscale 1 (vget [(1,0,0)] 0)]) := by
  have h := c1_fixed_zero_iterations_one_sweep
    ⟨false, true, true, 0, 1/100000000000, 103/100, false, 21304/10000⟩
    ratSqrt (fun _ => 0) idImage ⟨1, [(0,0,0)], [1], [0], [1]⟩
    [(1,0,0)] (init_guess (103/100) [1] [(1,0,0)]) [0] rfl rfl
  exact ⟨⟨rfl, rfl⟩, h.1, h.2.1, h.2.2.1, h.2.2.2.1,
    h.2.2.2.2 rfl rfl (by decide)⟩

/-! ### Precision mode: loop behaviour -/

lemma solver_go_prec_spec (cfg : PolarConfig) (T : ℕ → ℕ → ℚ) (N : ℕ)
    (alpha : List ℚ) (ef : List Vec3) (ranked : List ℕ)
    (hfix : cfg.fixed_iteration = false) :
    ∀ n k s pt mu mn, k ≤ cfg.iterations_max → cfg.iterations_max + 1 - k ≤ n →
      k < (solver_go cfg T N alpha ef ranked n k s pt mu mn).iterations ∧
      (solver_go cfg T N alpha ef ranked n k s pt mu mn).iterations
        ≤ cfg.iterations_max + 1 ∧
      (solver_go cfg T N alpha ef ranked n k s pt mu mn).sweeps
        = s + ((solver_go cfg T N alpha ef ranked n k s pt mu mn).iterations - k) ∧
      (solver_go cfg T N alpha ef ranked n k s pt mu mn).precision_tests
        = pt + ((solver_go cfg T N alpha ef ranked n k s pt mu mn).iterations - k) ∧
      ((solver_go cfg T N alpha ef ranked n k s pt mu mn).warned = true ↔
        (solver_go cfg T N alpha ef ranked n k s pt mu mn).iterations
          = cfg.iterations_max + 1) ∧
      ((solver_go cfg T N alpha ef ranked n k s pt mu mn).warned = true →
        (solver_go cfg T N alpha ef ranked n k s pt mu mn).mu = reset_mu N alpha ef) ∧
      (solver_go cfg T N alpha ef ranked n k s pt mu mn).mu.length = N := by
  intro n
  induction n with
  | zero =>
    intro k s pt mu mn hk hfuel
    omega
  | succ n ih =>
    intro k s pt mu mn hk hfuel
    rw [solver_go]
    simp only [hfix, eq_self_iff_true, if_true]
    by_cases hgt : k + 1 > cfg.iterations_max
    · rw [if_pos hgt]
      exact ⟨show k < k + 1 by omega, show k + 1 ≤ cfg.iterations_max + 1 by omega,
        show s + 1 = s + (k + 1 - k) by omega,
        show pt + 1 = pt + (k + 1 - k) by omega,
        ⟨fun _ => show k + 1 = cfg.iterations_max + 1 by omega, fun _ => rfl⟩,
        fun _ => rfl, reset_mu_length N alpha ef⟩
    · rw [if_neg hgt]
      by_cases hkeep : change_of N
          (do_sweep cfg T N alpha ef ranked mu mn).mu_new mu
            > cfg.polar_precision * cfg.polar_precision
      · rw [if_pos hkeep]
        have h := ih (k+1) (s+1) (pt+1)
          (commit_mu N (do_sweep cfg T N alpha ef ranked mu mn).mu_new)
          (do_sweep cfg T N alpha ef ranked mu mn).mu_new
          (by omega) (by omega)
        refine ⟨by have h1 := h.1; omega, h.2.1, ?_, ?_,
          h.2.2.2.2.1, h.2.2.2.2.2.1, h.2.2.2.2.2.2⟩
        · rw [h.2.2.1]; have h1 := h.1; omega
        · rw [h.2.2.2.1]; have h1 := h.1; omega
      · rw [if_neg hkeep]
        exact ⟨show k < k + 1 by omega, show k + 1 ≤ cfg.iterations_max + 1 by omega,
          show s + 1 = s + (k + 1 - k) by omega,
          show pt + 1 = pt + (k + 1 - k) by omega,
          ⟨fun hw => absurd hw Bool.false_ne_true,
            fun hit => absurd hit (show k + 1 ≠ cfg.iterations_max + 1 by omega)⟩,
          fun hw => absurd hw Bool.false_ne_true, commit_mu_length N _⟩

/-- C3.  In precision mode the solver always terminates within
`iterations_max + 1` passes with a dipole array of the full local length;
the divergence warning fires exactly when the pass budget is exhausted, and
whenever it fires the dipoles returned are the reset values
`alpha_i · E_static_i` (no relaxation factor) and the returned iteration
count is the capped value `iterations_max + 1`. -/
theorem c3_divergence_policy (cfg : PolarConfig) (sqrtQ expQ : ℚ → ℚ)
    (cimg : Vec3 → Vec3 → Vec3) (atoms : AtomState) (ef mu0 : List Vec3)
    (metric : List ℚ) (hfix : cfg.fixed_iteration = false) :
    (DipoleSolverIterative cfg sqrtQ expQ cimg atoms ef mu0 metric).iterations
      ≤ cfg.iterations_max + 1 ∧
    (DipoleSolverIterative cfg sqrtQ expQ cimg atoms ef mu0 metric).sweeps
      = (DipoleSolverIterative cfg sqrtQ expQ cimg atoms ef mu0 metric).iterations ∧
    ((DipoleSolverIterative cfg sqrtQ expQ cimg atoms ef mu0 metric).warned = true ↔
      (DipoleSolverIterative cfg sqrtQ expQ cimg atoms ef mu0 metric).iterations
        = cfg.iterations_max + 1) ∧
    ((DipoleSolverIterative cfg sqrtQ expQ cimg atoms ef mu0 metric).warned = true →
      (DipoleSolverIterative cfg sqrtQ expQ cimg atoms ef mu0 metric).mu
        = reset_mu atoms.nlocal atoms.static_polarizability ef) ∧
    (DipoleSolverIterative cfg sqrtQ expQ cimg atoms ef mu0 metric).mu.length
      = atoms.nlocal := by
  have h := solver_go_prec_spec cfg
    (build_dipole_field_matrix cfg sqrtQ expQ cimg atoms) atoms.nlocal
    atoms.static_polarizability ef (ranked_order cfg metric atoms.nlocal) hfix
    (cfg.iterations_max + 1) 0 0 0 mu0 mu0 (by omega) (by omega)
  rw [show DipoleSolverIterative cfg sqrtQ expQ cimg atoms ef mu0 metric
      = solver_go cfg (build_dipole_field_matrix cfg sqrtQ expQ cimg atoms)
          atoms.nlocal atoms.static_polarizability ef
          (ranked_order cfg metric atoms.nlocal) (cfg.iterations_max + 1) 0 0 0 mu0 mu0
    from by rw [DipoleSolverIterative, solver_loop, Nat.sub_zero]]
  exact ⟨h.2.1, by rw [h.2.2.1]; omega, h.2.2.2.2.1, h.2.2.2.2.2.1, h.2.2.2.2.2.2⟩

/-- Witness for C3 at a concrete diverging input (precision mode,
`iterations_max = 0`, one polarizable particle). -/
theorem c3_divergence_policy_witness :
    ((⟨false, true, false, 0, 1/100000000000, 103/100, false, 21304/10000⟩ : PolarConfig).fixed_iteration = false) ∧
    ((DipoleSolverIterative ⟨false, true, false, 0, 1/100000000000, 103/100, false, 21304/10000⟩
        ratSqrt (fun _ => 0) idImage ⟨1, [(0,0,0)], [1], [0], [1]⟩
        [(1,0,0)] (init_guess (103/100) [1] [(1,0,0)]) [0]).iterations ≤ 0 + 1 ∧
     (DipoleSolverIterative ⟨false, true, false, 0, 1/100000000000, 103/100, false, 21304/10000⟩
        ratSqrt (fun _ => 0) idImage ⟨1, [(0,0,0)], [1], [0], [1]⟩
        [(1,0,0)] (init_guess (103/100) [1] [(1,0,0)]) [0]).sweeps
       = (DipoleSolverIterative ⟨false, true, false, 0, 1/100000000000, 103/100, false, 21304/10000⟩
        ratSqrt (fun _ => 0) idImage ⟨1, [(0,0,0)], [1], [0], [1]⟩
        [(1,0,0)] (init_guess (103/100) [1] [(1,0,0)]) [0]).iterations ∧
     ((DipoleSolverIterative ⟨false, true, false, 0, 1/100000000000, 103/100, false, 21304/10000⟩
        ratSqrt (fun _ => 0) idImage ⟨1, [(0,0,0)], [1], [0], [1]⟩
        [(1,0,0)] (init_guess (103/100) [1] [(1,0,0)]) [0]).warned = true ↔
      (DipoleSolverIterative ⟨false, true, false, 0, 1/100000000000, 103/100, false, 21304/10000⟩
        ratSqrt (fun _ => 0) idImage ⟨1, [(0,0,0)], [1], [0], [1]⟩
        [(1,0,0)] (init_guess (103/100) [1] [(1,0,0)]) [0]).iterations = 0 + 1) ∧
     ((DipoleSolverIterative ⟨false, true, false, 0, 1/100000000000, 103/100, false, 21304/10000⟩
        ratSqrt (fun _ => 0) idImage ⟨1, [(0,0,0)], [1], [0], [1]⟩
        [(1,0,0)] (init_guess (103/100) [1] [(1,0,0)]) [0]).warned = true →
      (DipoleSolverIterative ⟨false, true, false, 0, 1/100000000000, 103/100, false, 21304/10000⟩
        ratSqrt (fun _ => 0) idImage ⟨1, [(0,0,0)], [1], [0], [1]⟩
        [(1,0,0)] (init_guess (103/100) [1] [(1,0,0)]) [0]).mu
        = reset_mu 1 [1] [(1,0,0)]) ∧
     (DipoleSolverIterative ⟨false, true, false, 0, 1/100000000000, 103/100, false, 21304/10000⟩
        ratSqrt (fun _ => 0) idImage ⟨1, [(0,0,0)], [1], [0], [1]⟩
        [(1,0,0)] (init_guess (103/100) [1] [(1,0,0)]) [0]).mu.length = 1) :=
  ⟨rfl, c3_divergence_policy
    ⟨false, true, false, 0, 1/100000000000, 103/100, false, 21304/10000⟩
    ratSqrt (fun _ => 0) idImage ⟨1, [(0,0,0)], [1], [0], [1]⟩
    [(1,0,0)] (init_guess (103/100) [1] [(1,0,0)]) [0] rfl⟩

/-! ### C4: the precision convergence test -/

lemma sum3_comp_sq (u v : Vec3) :
    ∑ p ∈ Finset.range 3, (comp u p - comp v p) ^ 2
      = (u - v).1 * (u - v).1 + (u - v).2.1 * (u - v).2.1
        + (u - v).2.2 * (u - v).2.2 := by
  obtain ⟨a, b, c⟩ := u
  obtain ⟨d, e, f⟩ := v
  rw [Finset.sum_range_succ, Finset.sum_range_succ, Finset.sum_range_succ,
    Finset.sum_range_zero]
  simp only [comp, Prod.mk_sub_mk]
  ring

/-- The convergence measure computed by the code equals the mean of the
squared per-component differences over all local particles and the three
axes (the spec's description of the test quantity). -/
lemma change_of_eq_mean_sq (N : ℕ) (a b : List Vec3) :
    change_of N a b
      = (∑ i ∈ Finset.range N, ∑ p ∈ Finset.range 3,
          (comp (vget a i) p - comp (vget b i) p) ^ 2) / (3 * (N : ℚ)) := by
  unfold change_of
  rw [mul_comm (N : ℚ) 3]
  congr 1
  induction N with
  | zero => simp
  | succ n ih =>
    rw [List.range_succ, List.foldl_append, List.foldl_cons, List.foldl_nil,
      Finset.sum_range_succ, ← ih, sum3_comp_sq]

/-- C4.  In precision mode (and with the pass budget not yet exhausted, so
the divergence cap does not interfere), the solver stops after the current
sweep exactly when the convergence measure — the mean over all local
particles and all three axes of the squared difference between the new
dipoles and the previous-sweep dipoles — is at most `polar_precision²`;
and that measure is literally the mean-squared-change expression. -/
theorem c4_convergence_test (cfg : PolarConfig) (T : ℕ → ℕ → ℚ) (N : ℕ)
    (alpha : List ℚ) (ef : List Vec3) (ranked : List ℕ) (k s pt : ℕ)
    (mu mn : List Vec3) (hfix : cfg.fixed_iteration = false)
    (hk : k + 1 ≤ cfg.iterations_max) :
    ((solver_loop cfg T N alpha ef ranked k s pt mu mn).sweeps = s + 1 ↔
      change_of N (do_sweep cfg T N alpha ef ranked mu mn).mu_new mu
        ≤ cfg.polar_precision * cfg.polar_precision) ∧
    change_of N (do_sweep cfg T N alpha ef ranked mu mn).mu_new mu
      = (∑ i ∈ Finset.range N, ∑ p ∈ Finset.range 3,
          (comp (vget (do_sweep cfg T N alpha ef ranked mu mn).mu_new i) p
            - comp (vget mu i) p) ^ 2) / (3 * (N : ℚ)) := by
  refine ⟨?_, change_of_eq_mean_sq N _ mu⟩
  unfold solver_loop
  obtain ⟨n, hn⟩ : ∃ n, cfg.iterations_max + 1 - k = n + 1 :=
    ⟨cfg.iterations_max - k, by omega⟩
  rw [hn, solver_go]
  simp only [hfix, eq_self_iff_true, if_true]
  rw [if_neg (by omega : ¬ k + 1 > cfg.iterations_max)]
  by_cases hkeep : change_of N (do_sweep cfg T N alpha ef ranked mu mn).mu_new mu
      > cfg.polar_precision * cfg.polar_precision
  · rw [if_pos hkeep]
    constructor
    · intro hs
      exfalso
      have h := solver_go_prec_spec cfg T N alpha ef ranked hfix n (k+1) (s+1)
        (pt+1) (commit_mu N (do_sweep cfg T N alpha ef ranked mu mn).mu_new)
        (do_sweep cfg T N alpha ef ranked mu mn).mu_new (by omega) (by omega)
      have h1 := h.1
      rw [h.2.2.1] at hs
      omega
    · intro hc
      exact absurd hkeep (not_lt.mpr hc)
  · rw [if_neg hkeep]
    exact ⟨fun _ => le_of_not_lt hkeep, fun _ => rfl⟩

/-- Witness for C4 at a concrete input (one particle, precision mode,
budget 5, first pass). -/
theorem c4_convergence_test_witness :
    ((⟨false, true, false, 5, 1/100000000000, 103/100, false, 21304/10000⟩ : PolarConfig).fixed_iteration = false ∧
      0 + 1 ≤ (⟨false, true, false, 5, 1/100000000000, 103/100, false, 21304/10000⟩ : PolarConfig).iterations_max) ∧
    (((solver_loop ⟨false, true, false, 5, 1/100000000000, 103/100, false, 21304/10000⟩
        (fun _ _ => 0) 1 [1] [(1,0,0)] [0] 0 0 0 [(103/100,0,0)] [(103/100,0,0)]).sweeps = 0 + 1 ↔
      change_of 1 (do_sweep ⟨false, true, false, 5, 1/100000000000, 103/100, false, 21304/10000⟩
          (fun _ _ => 0) 1 [1] [(1,0,0)] [0] [(103/100,0,0)] [(103/100,0,0)]).mu_new [(103/100,0,0)]
        ≤ (1/100000000000 : ℚ) * (1/100000000000)) ∧
     change_of 1 (do_sweep ⟨false, true, false, 5, 1/100000000000, 103/100, false, 21304/10000⟩
          (fun _ _ => 0) 1 [1] [(1,0,0)] [0] [(103/100,0,0)] [(103/100,0,0)]).mu_new [(103/100,0,0)]
       = (∑ i ∈ Finset.range 1, ∑ p ∈ Finset.range 3,
           (comp (vget (do_sweep ⟨false, true, false, 5, 1/100000000000, 103/100, false, 21304/10000⟩
               (fun _ _ => 0) 1 [1] [(1,0,0)] [0] [(103/100,0,0)] [(103/100,0,0)]).mu_new i) p
             - comp (vget [(103/100,0,0)] i) p) ^ 2) / (3 * ((1 : ℕ) : ℚ))) :=
  ⟨⟨rfl, by decide⟩, c4_convergence_test
    ⟨false, true, false, 5, 1/100000000000, 103/100, false, 21304/10000⟩
    (fun _ _ => 0) 1 [1] [(1,0,0)] [0] 0 0 0 [(103/100,0,0)] [(103/100,0,0)]
    rfl (by decide)⟩

/-! ### C6: zero-polarizability invariant -/

lemma vscale_zero_right (a : ℚ) : vscale a ((0:ℚ), (0:ℚ), (0:ℚ)) = (0, 0, 0) := by
  simp [vscale]

lemma vget_set_zero_self (l : List Vec3) (i : ℕ) :
    vget (l.set i ((0:ℚ), (0:ℚ), (0:ℚ))) i = (0, 0, 0) := by
  simp only [vget, List.getD, List.get?_eq_getElem?, List.getElem?_set_self']
  cases h : l[i]? <;> simp

/-- Any particle whose polarizability is zero keeps a zero dipole through a
whole sweep, in both the `mu` and the `mu_new` arrays, whatever the visiting
order: its own update writes `0·(E_static + E_induced) = 0`, and updates of
other particles do not touch its slot. -/
lemma do_sweep_zero (cfg : PolarConfig) (T : ℕ → ℕ → ℚ) (N : ℕ)
    (alpha : List ℚ) (ef : List Vec3) (i : ℕ) (ha : alpha.getD i 0 = 0) :
    ∀ (ranked : List ℕ) (mu mn : List Vec3),
      vget mu i = (0, 0, 0) → vget mn i = (0, 0, 0) →
      vget (do_sweep cfg T N alpha ef ranked mu mn).mu i = (0, 0, 0) ∧
      vget (do_sweep cfg T N alpha ef ranked mu mn).mu_new i = (0, 0, 0) := by
  intro ranked
  unfold do_sweep
  induction ranked with
  | nil => intro mu mn h1 h2; exact ⟨h1, h2⟩
  | cons a tl ih =>
    intro mu mn h1 h2
    rw [List.foldl_cons]
    by_cases hai : a = i
    · subst hai
      have hmnv : vscale (alpha.getD a 0) (vget ef a + ef_induced_at T N mu a)
          = ((0:ℚ), (0:ℚ), (0:ℚ)) := by
        rw [ha, vscale_zero]
      refine ih _ _ ?_ ?_
      · by_cases hgs : (cfg.polar_gs || cfg.polar_gs_ranked) = true
        · simp only [hgs, if_true, hmnv]
          exact vget_set_zero_self mu a
        · simp only [Bool.not_eq_true] at hgs
          simp only [hgs, Bool.false_eq_true, if_false]
          exact h1
      · simp only [hmnv]
        exact vget_set_zero_self mn a
    · refine ih _ _ ?_ ?_
      · by_cases hgs : (cfg.polar_gs || cfg.polar_gs_ranked) = true
        · simp only [hgs, if_true]
          rw [vget_set_ne mu a i _ hai]
          exact h1
        · simp only [Bool.not_eq_true] at hgs
          simp only [hgs, Bool.false_eq_true, if_false]
          exact h1
      · rw [vget_set_ne mn a i _ hai]
        exact h2

/-- The zero-dipole invariant for zero-polarizability particles is preserved
by the whole iteration loop: every exit path (fixed-iteration return, commit
return, divergence reset) leaves the particle's dipole at zero. -/
lemma solver_go_zero (cfg : PolarConfig) (T : ℕ → ℕ → ℚ) (N : ℕ)
    (alpha : List ℚ) (ef : List Vec3) (ranked : List ℕ) (i : ℕ)
    (ha : alpha.getD i 0 = 0) (hiN : i < N) :
    ∀ n k s pt mu mn, vget mu i = (0, 0, 0) → vget mn i = (0, 0, 0) →
      vget (solver_go cfg T N alpha ef ranked n k s pt mu mn).mu i = (0, 0, 0) := by
  intro n
  induction n with
  | zero =>
    intro k s pt mu mn h1 h2
    rw [solver_go]
    exact h1
  | succ n ih =>
    intro k s pt mu mn h1 h2
    have hsw := do_sweep_zero cfg T N alpha ef i ha ranked mu mn h1 h2
    have hreset : vget (reset_mu N alpha ef) i = ((0:ℚ), (0:ℚ), (0:ℚ)) := by
      rw [vget_reset_mu N alpha ef i hiN, ha, vscale_zero]
    have hcommit : vget (commit_mu N
        (do_sweep cfg T N alpha ef ranked mu mn).mu_new) i = ((0:ℚ), (0:ℚ), (0:ℚ)) := by
      rw [vget_commit_mu N _ i hiN]
      exact hsw.2
    rw [solver_go]
    by_cases hf : cfg.fixed_iteration = false
    · simp only [hf, eq_self_iff_true, if_true]
      split_ifs with hgt hkeep
      · exact hreset
      · exact ih (k+1) (s+1) (pt+1) _ _ hcommit hsw.2
      · exact hcommit
    · have hf' : cfg.fixed_iteration = true := by
        revert hf; cases cfg.fixed_iteration <;> simp
      simp only [hf', Bool.true_eq_false, if_false]
      split_ifs with hge hgt
      · exact hsw.1
      · exact hreset
      · exact ih (k+1) (s+1) pt _ _ hcommit hsw.2

/-- C6.  A particle with zero static polarizability has dipole exactly
`(0,0,0)` at every stage: after the initial guess in `compute`, after any
single sweep (in both the in-place and the `mu_new` arrays), after the
divergence reset, and in the final dipole array returned by
`DipoleSolverIterative`; and its term in the self-energy sum is zero. -/
theorem c6_zero_polarizability_invariant (cfg : PolarConfig)
    (sqrtQ expQ : ℚ → ℚ) (cimg : Vec3 → Vec3 → Vec3) (atoms : AtomState)
    (ef mu0 : List Vec3) (metric : List ℚ) (i : ℕ) (T : ℕ → ℕ → ℚ)
    (ranked : List ℕ) (mu mn : List Vec3) (eflag : Bool) (v : Vec3)
    (ha : atoms.static_polarizability.getD i 0 = 0) (hiN : i < atoms.nlocal)
    (hmu : vget mu i = (0, 0, 0)) (hmn : vget mn i = (0, 0, 0))
    (hmu0 : vget mu0 i = (0, 0, 0)) :
    vget (init_guess cfg.polar_gamma atoms.static_polarizability ef) i = (0, 0, 0) ∧
    vget (do_sweep cfg T atoms.nlocal atoms.static_polarizability ef ranked mu mn).mu i
      = (0, 0, 0) ∧
    vget (do_sweep cfg T atoms.nlocal atoms.static_polarizability ef ranked mu mn).mu_new i
      = (0, 0, 0) ∧
    vget (reset_mu atoms.nlocal atoms.static_polarizability ef) i = (0, 0, 0) ∧
    u_polar_self_term eflag v (atoms.static_polarizability.getD i 0) = 0 ∧
    vget (DipoleSolverIterative cfg sqrtQ expQ cimg atoms ef mu0 metric).mu i
      = (0, 0, 0) := by
  have hsw := do_sweep_zero cfg T atoms.nlocal atoms.static_polarizability ef i ha
    ranked mu mn hmu hmn
  refine ⟨?_, hsw.1, hsw.2, ?_, ?_, ?_⟩
  · rw [init_guess, vget_map_range]
    by_cases h : i < ef.length
    · simp only [h, if_true]
      rw [ha, vscale_zero, vscale_zero_right]
    · simp only [h, if_false]
  · rw [vget_reset_mu _ _ _ i hiN, ha, vscale_zero]
  · rw [ha]
    simp [u_polar_self_term]
  · exact solver_go_zero cfg (build_dipole_field_matrix cfg sqrtQ expQ cimg atoms)
      atoms.nlocal atoms.static_polarizability ef
      (ranked_order cfg metric atoms.nlocal) i ha hiN _ 0 0 0 mu0 mu0 hmu0 hmu0

/-- Witness for C6 at a concrete input: particle 1 has `alpha = 0`. -/
theorem c6_zero_polarizability_invariant_witness :
    (([(1:ℚ), 0] : List ℚ).getD 1 0 = 0 ∧ 1 < 2 ∧
      vget [((5:ℚ),5,5), (0,0,0)] 1 = (0, 0, 0) ∧
      vget [((7:ℚ),7,7), (0,0,0)] 1 = (0, 0, 0) ∧
      vget (init_guess (103/100) [1, 0] [(1,0,0),(1,0,0)]) 1 = (0, 0, 0)) ∧
    (vget (init_guess (103/100 : ℚ) [1, 0] [(1,0,0),(1,0,0)]) 1 = (0, 0, 0) ∧
     vget (do_sweep ⟨false, true, false, 50, 1/100000000000, 103/100, false, 21304/10000⟩
        (fun _ _ => 1) 2 [1, 0] [(1,0,0),(1,0,0)] [0, 1]
        [((5:ℚ),5,5), (0,0,0)] [((7:ℚ),7,7), (0,0,0)]).mu 1 = (0, 0, 0) ∧
     vget (do_sweep ⟨false, true, false, 50, 1/100000000000, 103/100, false, 21304/10000⟩
        (fun _ _ => 1) 2 [1, 0] [(1,0,0),(1,0,0)] [0, 1]
        [((5:ℚ),5,5), (0,0,0)] [((7:ℚ),7,7), (0,0,0)]).mu_new 1 = (0, 0, 0) ∧
     vget (reset_mu 2 [1, 0] [(1,0,0),(1,0,0)]) 1 = (0, 0, 0) ∧
     u_polar_self_term true ((3:ℚ), 4, 5) (([(1:ℚ), 0] : List ℚ).getD 1 0) = 0 ∧
     vget (DipoleSolverIterative
        ⟨false, true, false, 50, 1/100000000000, 103/100, false, 21304/10000⟩
        ratSqrt (fun _ => 0) idImage
        ⟨2, [(0,0,0),(1,0,0)], [1,1], [0,0], [1,0]⟩
        [(1,0,0),(1,0,0)]
        (init_guess (103/100) [1, 0] [(1,0,0),(1,0,0)]) [0,0]).mu 1 = (0, 0, 0)) :=
  ⟨⟨rfl, by decide, rfl, rfl, by with_unfolding_all decide⟩,
    c6_zero_polarizability_invariant
      ⟨false, true, false, 50, 1/100000000000, 103/100, false, 21304/10000⟩
      ratSqrt (fun _ => 0) idImage ⟨2, [(0,0,0),(1,0,0)], [1,1], [0,0], [1,0]⟩
      [(1,0,0),(1,0,0)] (init_guess (103/100) [1, 0] [(1,0,0),(1,0,0)]) [0,0]
      1 (fun _ _ => 1) [0, 1] [((5:ℚ),5,5), (0,0,0)] [((7:ℚ),7,7), (0,0,0)]
      true ((3:ℚ), 4, 5) rfl (by decide) rfl rfl (by with_unfolding_all decide)⟩

/-! ### C10: the diagonal blocks of the field matrix are never read -/

lemma tApply_offdiag_congr (T1 T2 : ℕ → ℕ → ℚ)
    (h : ∀ a b, a / 3 ≠ b / 3 → T1 a b = T2 a b) (i j : ℕ) (hij : i ≠ j)
    (v : Vec3) : tApply T1 i j v = tApply T2 i j v := by
  have e : ∀ a b, a / 3 = i → b / 3 = j → T1 a b = T2 a b := by
    intro a b ha hb
    exact h a b (by omega)
  unfold tApply
  rw [e (3*i) (3*j) (by omega) (by omega), e (3*i) (3*j+1) (by omega) (by omega),
    e (3*i) (3*j+2) (by omega) (by omega), e (3*i+1) (3*j) (by omega) (by omega),
    e (3*i+1) (3*j+1) (by omega) (by omega), e (3*i+1) (3*j+2) (by omega) (by omega),
    e (3*i+2) (3*j) (by omega) (by omega), e (3*i+2) (3*j+1) (by omega) (by omega),
    e (3*i+2) (3*j+2) (by omega) (by omega)]

lemma ef_induced_at_congr (T1 T2 : ℕ → ℕ → ℚ)
    (h : ∀ a b, a / 3 ≠ b / 3 → T1 a b = T2 a b) (N : ℕ) (mu : List Vec3)
    (index : ℕ) : ef_induced_at T1 N mu index = ef_induced_at T2 N mu index := by
  unfold ef_induced_at
  congr 1
  funext acc j
  split_ifs with hij
  · rw [tApply_offdiag_congr T1 T2 h index j hij]
  · rfl

lemma do_sweep_congr (cfg : PolarConfig) (T1 T2 : ℕ → ℕ → ℚ)
    (h : ∀ a b, a / 3 ≠ b / 3 → T1 a b = T2 a b) (N : ℕ) (alpha : List ℚ)
    (ef : List Vec3) (ranked : List ℕ) (mu mn : List Vec3) :
    do_sweep cfg T1 N alpha ef ranked mu mn
      = do_sweep cfg T2 N alpha ef ranked mu mn := by
  unfold do_sweep
  congr 1
  funext st index
  rw [ef_induced_at_congr T1 T2 h N st.mu index]

lemma solver_go_congr (cfg : PolarConfig) (T1 T2 : ℕ → ℕ → ℚ)
    (h : ∀ a b, a / 3 ≠ b / 3 → T1 a b = T2 a b) (N : ℕ) (alpha : List ℚ)
    (ef : List Vec3) (ranked : List ℕ) :
    ∀ n k s pt mu mn, solver_go cfg T1 N alpha ef ranked n k s pt mu mn
      = solver_go cfg T2 N alpha ef ranked n k s pt mu mn := by
  intro n
  induction n with
  | zero => intro k s pt mu mn; rw [solver_go, solver_go]
  | succ n ih =>
    intro k s pt mu mn
    rw [solver_go, solver_go]
    simp only [do_sweep_congr cfg T1 T2 h N alpha ef]
    by_cases hf : cfg.fixed_iteration = false
    · simp only [hf, eq_self_iff_true, if_true]
      split_ifs
      · rfl
      · exact ih (k+1) (s+1) (pt+1) _ _
      · rfl
    · have hf' : cfg.fixed_iteration = true := by
        revert hf; cases cfg.fixed_iteration <;> simp
      simp only [hf', Bool.true_eq_false, if_false]
      split_ifs
      · rfl
      · rfl
      · exact ih (k+1) (s+1) pt _ _

/-- C10.  The induced-field contraction skips the `j == index` term, so the
iteration loop never reads the diagonal 3x3 blocks of the dipole field
matrix: two matrices that agree on all entries outside the block diagonal
(`a/3 ≠ b/3`) — in particular, the real matrix and one whose diagonal
sentinel `DBL_MAX` entries are replaced arbitrarily — produce identical
solver runs (dipoles, counters and warning flag all equal). -/
theorem c10_diagonal_blocks_never_read (cfg : PolarConfig) (T1 T2 : ℕ → ℕ → ℚ)
    (N : ℕ) (alpha : List ℚ) (ef : List Vec3) (ranked : List ℕ)
    (k s pt : ℕ) (mu mn : List Vec3)
    (h : ∀ a b, a / 3 ≠ b / 3 → T1 a b = T2 a b) :
    solver_loop cfg T1 N alpha ef ranked k s pt mu mn
      = solver_loop cfg T2 N alpha ef ranked k s pt mu mn := by
  unfold solver_loop
  exact solver_go_congr cfg T1 T2 h N alpha ef ranked _ k s pt mu mn

/-- Witness for C10: replacing a `DBL_MAX` block diagonal by zeros does not
change a concrete solver run. -/
theorem c10_diagonal_blocks_never_read_witness :
    solver_loop ⟨false, true, false, 3, 1/100000000000, 103/100, false, 21304/10000⟩
        (fun a b => if a = b then DBL_MAX else 0) 2 [1, 0] [(1,0,0),(0,0,0)]
        [0, 1] 0 0 0 [(1,0,0),(0,0,0)] [(1,0,0),(0,0,0)]
      = solver_loop ⟨false, true, false, 3, 1/100000000000, 103/100, false, 21304/10000⟩
        (fun _ _ => 0) 2 [1, 0] [(1,0,0),(0,0,0)]
        [0, 1] 0 0 0 [(1,0,0),(0,0,0)] [(1,0,0),(0,0,0)] :=
  c10_diagonal_blocks_never_read
    ⟨false, true, false, 3, 1/100000000000, 103/100, false, 21304/10000⟩
    (fun a b => if a = b then DBL_MAX else 0) (fun _ _ => 0) 2 [1, 0]
    [(1,0,0),(0,0,0)] [0, 1] 0 0 0 [(1,0,0),(0,0,0)] [(1,0,0),(0,0,0)]
    (fun a b hab => by
      have hne : a ≠ b := by omega
      simp [hne])

/-! ### C7: molecule exclusion -/

set_option maxRecDepth 4000 in
/-- C7.  (a) Two particles sharing the same nonzero molecule id contribute
nothing to each other's static field, and their charge-dipole force and
energy vanish: the pair's polarization force/energy equals what it would be
with both charges removed — which is exactly the dipole-dipole coupling,
still computed.  (b) A particle with molecule id 0 is never excluded: its
static-field pair kernel equals the unexcluded kernel and its pair
force/energy equals that of a pair with distinct nonzero molecule ids, for
every partner id `m0` — including `m0 = 0`.  (c) At a concrete pair with the
same nonzero molecule id the dipole-dipole force is nonzero. -/
theorem c7_molecule_exclusion (cut_coul qqrd2e : ℚ) (dampExp : Bool) (pd : ℚ)
    (sqrtQ expQ : ℚ → ℚ) (cimg : Vec3 → Vec3 → Vec3) (xi xj : Vec3)
    (qi qj : ℚ) (mi mj m0 : ℤ) (mui muj : Vec3) (ai aj : ℚ) (eflag : Bool) :
    (mi = mj → mi ≠ 0 →
      ef_static_pair cut_coul sqrtQ cimg xi xj qi qj mi mj = ((0,0,0), (0,0,0)) ∧
      polar_pair cut_coul qqrd2e dampExp pd sqrtQ expQ cimg xi xj qi qj mi mj
          mui muj ai aj eflag
        = polar_pair cut_coul qqrd2e dampExp pd sqrtQ expQ cimg xi xj 0 0 mi mj
          mui muj ai aj eflag) ∧
    (ef_static_pair cut_coul sqrtQ cimg xi xj qi qj 0 m0
        = ef_static_pair_unexcluded cut_coul sqrtQ cimg xi xj qi qj ∧
      polar_pair cut_coul qqrd2e dampExp pd sqrtQ expQ cimg xi xj qi qj 0 m0
          mui muj ai aj eflag
        = polar_pair cut_coul qqrd2e dampExp pd sqrtQ expQ cimg xi xj qi qj 5 7
          mui muj ai aj eflag) ∧
    (polar_pair 10 1 false (21304/10000) ratSqrt (fun _ => 0) idImage
        (0,0,0) (1,0,0) 1 1 3 3 (1,0,0) (1,0,0) 1 1 true
        = some ((6, 0, 0), 0, -2) ∧
      ((6 : ℚ), (0 : ℚ), (0 : ℚ)) ≠ (0, 0, 0)) := by
  refine ⟨?_, ⟨?_, ?_⟩, by with_unfolding_all decide, by decide⟩
  · intro hmol hne
    subst hmol
    constructor
    · unfold ef_static_pair
      simp [hne]
    · unfold polar_pair
      simp [hne]
  · unfold ef_static_pair ef_static_pair_unexcluded
    simp
  · unfold polar_pair
    norm_num

set_option maxRecDepth 4000 in
/-- Witness for C7 at concrete molecule ids (`mi = mj = 3`, `m0 = 0`). -/
theorem c7_molecule_exclusion_witness :
    (((3 : ℤ) = 3) ∧ ((3 : ℤ) ≠ 0)) ∧
    ((ef_static_pair 10 ratSqrt idImage (0,0,0) (1,0,0) 1 1 3 3 = ((0,0,0), (0,0,0)) ∧
      polar_pair 10 1 false (21304/10000) ratSqrt (fun _ => 0) idImage (0,0,0) (1,0,0)
          1 1 3 3 (1,0,0) (1,0,0) 1 1 true
        = polar_pair 10 1 false (21304/10000) ratSqrt (fun _ => 0) idImage (0,0,0) (1,0,0)
          0 0 3 3 (1,0,0) (1,0,0) 1 1 true) ∧
     (ef_static_pair 10 ratSqrt idImage (0,0,0) (1,0,0) 1 1 0 0
        = ef_static_pair_unexcluded 10 ratSqrt idImage (0,0,0) (1,0,0) 1 1 ∧
      polar_pair 10 1 false (21304/10000) ratSqrt (fun _ => 0) idImage (0,0,0) (1,0,0)
          1 1 0 0 (1,0,0) (1,0,0) 1 1 true
        = polar_pair 10 1 false (21304/10000) ratSqrt (fun _ => 0) idImage (0,0,0) (1,0,0)
          1 1 5 7 (1,0,0) (1,0,0) 1 1 true) ∧
     (polar_pair 10 1 false (21304/10000) ratSqrt (fun _ => 0) idImage
        (0,0,0) (1,0,0) 1 1 3 3 (1,0,0) (1,0,0) 1 1 true
        = some ((6, 0, 0), 0, -2) ∧
      ((6 : ℚ), (0 : ℚ), (0 : ℚ)) ≠ (0, 0, 0))) := by
  have h := c7_molecule_exclusion 10 1 false (21304/10000) ratSqrt (fun _ => 0)
    idImage (0,0,0) (1,0,0) 1 1 3 3 0 (1,0,0) (1,0,0) 1 1 true
  exact ⟨⟨rfl, by decide⟩, h.1 rfl (by decide), h.2.1, h.2.2⟩

/-! ### C8: coincident particles -/

set_option maxRecDepth 4000 in
/-- C8.  At a coincident pair (`r = 0`) the matrix builder saturates the
`1/r³` and `1/r⁵` factors to the finite sentinel `DBL_MAX` (shown on the
diagonal and an off-diagonal entry of the pair block), as the claim states;
but in the force loop of `compute` the unguarded `r2inv = 1.0/rsq` prefix
divides by zero for the same pair, so a non-finite value (modelled by
`none`) does reach the per-particle force/energy outputs, contradicting the
second half of the claim. -/
theorem c8_coincident_pair_sentinel_and_force_blowup :
    (build_dipole_field_matrix
        ⟨false, true, false, 50, 1/100000000000, 103/100, false, 21304/10000⟩
        ratSqrt (fun _ => 0) idImage
        ⟨2, [(0,0,0),(0,0,0)], [1,1], [0,1], [1,1]⟩ 0 3 = DBL_MAX ∧
     build_dipole_field_matrix
        ⟨false, true, false, 50, 1/100000000000, 103/100, false, 21304/10000⟩
        ratSqrt (fun _ => 0) idImage
        ⟨2, [(0,0,0),(0,0,0)], [1,1], [0,1], [1,1]⟩ 0 4 = 0 ∧
     build_dipole_field_matrix
        ⟨false, true, false, 50, 1/100000000000, 103/100, false, 21304/10000⟩
        ratSqrt (fun _ => 0) idImage
        ⟨2, [(0,0,0),(0,0,0)], [1,1], [0,1], [1,1]⟩ 1 4 = DBL_MAX) ∧
    polar_pair 10 1 false (21304/10000) ratSqrt (fun _ => 0) idImage
      (0,0,0) (0,0,0) 1 1 0 1 (1,0,0) (1,0,0) 1 1 true = none := by
  refine ⟨⟨?_, ?_, ?_⟩, ?_⟩ <;>
    norm_num [build_dipole_field_matrix, dfm_pair_block, polar_pair, qdivOpt,
      idImage, vget, comp, ratSqrt_zero, List.getD_cons_zero, List.getD_cons_succ,
      Prod.mk_sub_mk]

end Polarization
